import Mathlib

/-!
Verification development for a Go chat relay (`main.go`).

The program accepts chat text over a WebSocket, forwards it as one streaming
HTTP POST to a chat-completion endpoint, and relays the parsed incremental
content fragments back over the same WebSocket.

Modelling conventions:
- Go strings are modelled as lists of runes (`List Char`), written `GoStr`.
- `encoding/json.Unmarshal` into `OpenAIResponse` is an external library
  function; the relay is parameterised by an oracle
  `u : GoStr -> Option OpenAIResponse` (`none` models an unmarshal error).
  Theorems quantify over the oracle; concrete instances evaluate it on the
  finitely many lines they mention.
- WebSocket writes, HTTP transport and logging are modelled by the lists of
  frames, requests and log tags a relay task produces.
-/

namespace LlmChat

/-- Go strings, modelled as lists of runes. -/
abbrev GoStr := List Char

/-- Embed a Lean string literal into the Go string model. -/
def gs (s : String) : GoStr := s.toList

/-- Go `unicode.IsSpace` (the rune classes trimmed by `strings.TrimSpace`). -/
def goIsSpace (c : Char) : Bool :=
  c.val = 0x09 || c.val = 0x0A || c.val = 0x0B || c.val = 0x0C || c.val = 0x0D ||
  c.val = 0x20 || c.val = 0x85 || c.val = 0xA0 || c.val = 0x1680 ||
  (0x2000 ≤ c.val && c.val ≤ 0x200A) || c.val = 0x2028 || c.val = 0x2029 ||
  c.val = 0x202F || c.val = 0x205F || c.val = 0x3000

/-- Go `strings.TrimSpace`: drop leading and trailing space runes. -/
def trimSpace (s : GoStr) : GoStr :=
  ((s.dropWhile goIsSpace).reverse.dropWhile goIsSpace).reverse

/-- Go `strings.TrimPrefix s p`: remove the leading `p` from `s` when present,
otherwise return `s` unchanged. -/
def goTrimLeading (s p : GoStr) : GoStr :=
  if p.isPrefixOf s then s.drop p.length else s

/-- `main.go` struct `Message`. -/
structure Message where
  role : GoStr
  content : GoStr
deriving DecidableEq

/-- `main.go` struct `OpenAIRequest`. -/
structure OpenAIRequest where
  model : GoStr
  messages : List Message
  stream : Bool
deriving DecidableEq

/-- The anonymous `Delta` struct nested in `OpenAIResponse`. -/
structure Delta where
  content : GoStr
deriving DecidableEq

/-- The anonymous choice struct nested in `OpenAIResponse`. -/
structure Choice where
  delta : Delta
deriving DecidableEq

/-- `main.go` struct `OpenAIResponse`. -/
structure OpenAIResponse where
  choices : List Choice
deriving DecidableEq

/-- `main.go` struct `WebSocketMessage` (used for frames in both directions). -/
structure WebSocketMessage where
  text : GoStr
deriving DecidableEq

/-- The sentinel line `data: [DONE]` of the upstream event stream. -/
def sentinelLine : GoStr := gs "data: [DONE]"

/-- The `data: ` tag stripped from each upstream line. -/
def dataTag : GoStr := gs "data: "

/-- The marker prepended to the first emitted fragment of a relay task. -/
def aiMark : GoStr := gs "AI: "

/-- One iteration of the `for` loop of `streamResponse` (`main.go` lines
177-202) on a successfully read line: trim the line, skip it when empty or
equal to the sentinel, strip the `data: ` tag, unmarshal (oracle `u`), and
when the first choice carries non-empty content produce the outbound frame
text, prefixing `AI: ` when `isFirstToken` is still set.  Returns the
optional frame together with the updated `isFirstToken` flag. -/
def processLine (u : GoStr → Option OpenAIResponse) (isFirstToken : Bool)
    (rawLine : GoStr) : Option GoStr × Bool :=
  if trimSpace rawLine = [] ∨ trimSpace rawLine = sentinelLine then
    (none, isFirstToken)
  else
    match u (goTrimLeading (trimSpace rawLine) dataTag) with
    | none => (none, isFirstToken)
    | some aiResp =>
      match aiResp.choices with
      | [] => (none, isFirstToken)
      | choice :: _ =>
        if choice.delta.content = [] then (none, isFirstToken)
        else if isFirstToken then (some (aiMark ++ choice.delta.content), false)
        else (some choice.delta.content, isFirstToken)

/-- The loop of `streamResponse` over the lines successfully read from the
response body, threading `isFirstToken`; returns the outbound frame texts in
emission order.  (A trailing chunk not terminated by a newline is returned by
`ReadString` together with `io.EOF` and is discarded by the code, so the
input here is the list of delimiter-terminated lines.) -/
def relayLines (u : GoStr → Option OpenAIResponse) (isFirstToken : Bool) :
    List GoStr → List GoStr
  | [] => []
  | l :: ls =>
    match processLine u isFirstToken l with
    | (none, b) => relayLines u b ls
    | (some f, b) => f :: relayLines u b ls

/-- Helper view of `processLine`: the non-empty content, if any, that a line
contributes (`processLine_char` proves the correspondence). -/
def lineContent (u : GoStr → Option OpenAIResponse) (rawLine : GoStr) :
    Option GoStr :=
  if trimSpace rawLine = [] ∨ trimSpace rawLine = sentinelLine then none
  else
    match u (goTrimLeading (trimSpace rawLine) dataTag) with
    | none => none
    | some aiResp =>
      match aiResp.choices with
      | [] => none
      | choice :: _ =>
        if choice.delta.content = [] then none else some choice.delta.content

/-- The non-empty contents a line list yields, in order: exactly the
fragments a relay task attempts to write (up to the `AI: ` marker). -/
def emittedContents (u : GoStr → Option OpenAIResponse) (ls : List GoStr) :
    List GoStr :=
  ls.filterMap (lineContent u)

/-- Spec-side: the `delta.content` value of the first choice of a well-formed
upstream line — a line that is not empty after trimming, is not the sentinel,
and whose remainder after stripping the `data: ` tag unmarshals with at least
one choice.  Empty contents are included here, unlike in `lineContent`. -/
def firstChoiceContent (u : GoStr → Option OpenAIResponse) (rawLine : GoStr) :
    Option GoStr :=
  if trimSpace rawLine = [] ∨ trimSpace rawLine = sentinelLine then none
  else
    match u (goTrimLeading (trimSpace rawLine) dataTag) with
    | none => none
    | some aiResp =>
      match aiResp.choices with
      | [] => none
      | choice :: _ => some choice.delta.content

/-- Spec-side: the `delta.content` values of the first choice of every
well-formed upstream line, in upstream order. -/
def upstreamContents (u : GoStr → Option OpenAIResponse) (ls : List GoStr) :
    List GoStr :=
  ls.filterMap (firstChoiceContent u)

/-- Spec-side: remove the `AI: ` marker from a string when it carries it. -/
def removeAIMark (s : GoStr) : GoStr :=
  if aiMark.isPrefixOf s then s.drop aiMark.length else s

/-- Spec-side: remove the `AI: ` marker from the first fragment of a list. -/
def stripAIHead : List GoStr → List GoStr
  | [] => []
  | f :: fs => removeAIMark f :: fs

/-- Prepend the `AI: ` marker to the first element of a list. -/
def markFirst : List GoStr → List GoStr
  | [] => []
  | c :: cs => (aiMark ++ c) :: cs

/-- A concrete upstream chunk: a JSON object whose first choice's delta
content is `Hi`. -/
def chunkHi : GoStr :=
  gs "\x7b\"choices\":[\x7b\"delta\":\x7b\"content\":\"Hi\"\x7d\x7d]\x7d"

/-- A concrete upstream chunk whose first choice's delta content is
`\x20there` (a fragment with a leading space). -/
def chunkThere : GoStr :=
  gs "\x7b\"choices\":[\x7b\"delta\":\x7b\"content\":\" there\"\x7d\x7d]\x7d"

/-- A concrete upstream chunk with an empty `choices` array. -/
def chunkNoChoices : GoStr := gs "\x7b\"choices\":[]\x7d"

/-- Oracle for `encoding/json.Unmarshal` into `OpenAIResponse` at the
concrete chunks used by the closed theorems below; the values returned are
the ones Go's unmarshaller produces on exactly these inputs, and every other
input is reported as an unmarshal error. -/
def unmarshalDemo (s : GoStr) : Option OpenAIResponse :=
  if s = chunkHi then some ⟨[⟨⟨gs "Hi"⟩⟩]⟩
  else if s = chunkThere then some ⟨[⟨⟨gs " there"⟩⟩]⟩
  else if s = chunkNoChoices then some ⟨[]⟩
  else none

/-- The constant `openAIURL` of `main.go`. -/
def openAIURL : GoStr := gs "https://api.openai.com/v1/chat/completions"

/-- The request payload built by `streamResponse` (`main.go` lines 140-146). -/
def buildOpenAIRequest (message : GoStr) : OpenAIRequest :=
  { model := gs "gpt-4o-mini"
    messages := [{ role := gs "user", content := message }]
    stream := true }

/-- An outbound HTTP request as assembled by `streamResponse` (`main.go`
lines 151-153); the body sent is `json.Marshal` of `payload`, modelled at
the value level. -/
structure HTTPRequest where
  method : GoStr
  url : GoStr
  headers : List (GoStr × GoStr)
  payload : OpenAIRequest
deriving DecidableEq

/-- The single outbound request of one relay task. -/
def buildHTTPRequest (message apiKey : GoStr) : HTTPRequest :=
  { method := gs "POST"
    url := openAIURL
    headers := [(gs "Content-Type", gs "application/json"),
                (gs "Authorization", gs "Bearer " ++ apiKey)]
    payload := buildOpenAIRequest message }

/-- Outcome of `client.Do` and of reading the response body: either the
request fails to establish (`client.Do` returns an error), or a body is
obtained from which `lines` are successfully read before the reader stops
with `io.EOF` (`readError = false`) or another read error
(`readError = true`). -/
inductive UpstreamOutcome where
  | connFailure
  | body (lines : List GoStr) (readError : Bool)
deriving DecidableEq

/-- Log tags printed by `streamResponse` (the dynamic error detail that Go
prints after the tag is elided). -/
def connFailureLog : GoStr := gs "Error calling OpenAI API:"

/-- Log tag for a body read error in `streamResponse`. -/
def readFailureLog : GoStr := gs "Error reading stream:"

/-- Observable effects of one relay task. -/
structure RelayResult where
  requests : List HTTPRequest
  frames : List GoStr
  logs : List GoStr
deriving DecidableEq

/-- `streamResponse` of `main.go` (lines 138-204): build and issue exactly
one outbound request; on connection failure log and stop with no frames;
otherwise run the line loop over the body and log a non-EOF read error. -/
def streamResponse (u : GoStr → Option OpenAIResponse)
    (message apiKey : GoStr) (upstream : UpstreamOutcome) : RelayResult :=
  match upstream with
  | .connFailure =>
    { requests := [buildHTTPRequest message apiKey]
      frames := []
      logs := [connFailureLog] }
  | .body lines readError =>
    { requests := [buildHTTPRequest message apiKey]
      frames := relayLines u true lines
      logs := if readError then [readFailureLog] else [] }

/-- Result of one `c.ReadJSON` call in `handleWebSocket`: either a decoded
`WebSocketMessage`, or an error — a client-initiated close as well as an
inbound frame that fails to decode as a `WebSocketMessage` both surface as
the same non-nil error of `ReadJSON`. -/
inductive ReadResult where
  | ok (msg : WebSocketMessage)
  | fail
deriving DecidableEq

/-- The text of a successful read. -/
def okText : ReadResult → Option GoStr
  | .ok m => some m.text
  | .fail => none

/-- The read loop of `handleWebSocket` (`main.go` lines 123-133): read until
the first error, spawning a relay task per decoded message; returns the
message texts handed to `streamResponse`, in order.  Events after the first
error are never read. -/
def wsLoop : List ReadResult → List GoStr
  | [] => []
  | .fail :: _ => []
  | .ok m :: es => m.text :: wsLoop es

/-- Identity of a WebSocket connection in the `clients` registry. -/
abbrev ConnId := Nat

/-- `clients[c] = true` (`main.go` line 118). -/
def registerConn (clients : ConnId → Bool) (c : ConnId) : ConnId → Bool :=
  fun x => if x = c then true else clients x

/-- `delete(clients, c)` (`main.go` line 120, run via `defer` when the
handler returns). -/
def unregisterConn (clients : ConnId → Bool) (c : ConnId) : ConnId → Bool :=
  fun x => if x = c then false else clients x

/-- `handleWebSocket` of `main.go` (lines 115-134): register the connection,
run the read loop, and (by the deferred delete) unregister it when the loop
exits.  Returns the spawned message texts and the registry after the handler
returns.  The handler itself writes nothing to the connection. -/
def handleWebSocket (clients : ConnId → Bool) (c : ConnId)
    (events : List ReadResult) : List GoStr × (ConnId → Bool) :=
  (wsLoop events, unregisterConn (registerConn clients c) c)

/-- Outcome of `main` before any request is handled: either the process
prints a diagnostic and returns without creating the app or binding a
listener, or it serves on the chosen port. -/
inductive StartupResult where
  | exitBeforeServing (diagnostic : GoStr)
  | serve (port : GoStr)
deriving DecidableEq

/-- The diagnostic printed when the API key is absent (`main.go` line 76). -/
def missingKeyDiagnostic : GoStr :=
  gs "Please set the OPENAI_API_KEY environment variable"

/-- The startup logic of `main` (`main.go` lines 71-103): `os.Getenv` yields
the empty string for an unset variable, so both environment values are plain
strings; an empty `OPENAI_API_KEY` aborts before serving, and an empty
`PORT` falls back to `8080`. -/
def mainStartup (openAIKeyEnv portEnv : GoStr) : StartupResult :=
  if openAIKeyEnv = [] then .exitBeforeServing missingKeyDiagnostic
  else .serve (if portEnv = [] then gs "8080" else portEnv)

/-- The loop of `streamResponse` with the result of each `conn.WriteJSON`
call made observable: `w k` is the error-freeness of the `k`-th write of the
task.  The code discards `WriteJSON`'s return value, so the write outcome is
recorded next to the attempted frame but influences neither the
`isFirstToken` flag nor the continuation of the loop. -/
def relayWrites (u : GoStr → Option OpenAIResponse) (w : Nat → Bool)
    (isFirstToken : Bool) (k : Nat) : List GoStr → List (GoStr × Bool)
  | [] => []
  | l :: ls =>
    match processLine u isFirstToken l with
    | (none, b) => relayWrites u w b k ls
    | (some f, b) => (f, w k) :: relayWrites u w b (k + 1) ls

theorem isPrefixOf_self_app (p s : GoStr) : p.isPrefixOf (p ++ s) = true := by
  induction p with
  | nil => simp [List.isPrefixOf]
  | cons a as ih => simp [List.isPrefixOf, ih]

theorem drop_len_app (p s : GoStr) : (p ++ s).drop p.length = s := by
  induction p with
  | nil => rfl
  | cons a as ih => exact ih

theorem removeAIMark_app (c : GoStr) : removeAIMark (aiMark ++ c) = c := by
  unfold removeAIMark
  rw [if_pos (isPrefixOf_self_app aiMark c), drop_len_app]

/-- `processLine` through the lens of `lineContent`: a line either
contributes nothing and leaves the flag unchanged, or contributes a
non-empty content, marked when the flag is still set. -/
theorem processLine_char (u : GoStr → Option OpenAIResponse) (b : Bool)
    (l : GoStr) :
    processLine u b l =
      match lineContent u l with
      | none => (none, b)
      | some c => if b then (some (aiMark ++ c), false) else (some c, b) := by
  unfold processLine lineContent
  by_cases h1 : trimSpace l = [] ∨ trimSpace l = sentinelLine
  · simp [h1]
  · simp only [if_neg h1]
    cases hu : u (goTrimLeading (trimSpace l) dataTag) with
    | none => simp
    | some r =>
      cases hc : r.choices with
      | nil => simp [hc]
      | cons ch rest =>
        by_cases hcc : ch.delta.content = []
        · simp [hc, hcc]
        · simp [hc, hcc]

theorem relayLines_false (u : GoStr → Option OpenAIResponse)
    (ls : List GoStr) : relayLines u false ls = emittedContents u ls := by
  induction ls with
  | nil => rfl
  | cons l ls ih =>
    simp only [relayLines, processLine_char, emittedContents,
      List.filterMap_cons]
    cases hl : lineContent u l with
    | none => simpa [emittedContents] using ih
    | some c => simpa [emittedContents] using ih

theorem relayLines_true (u : GoStr → Option OpenAIResponse)
    (ls : List GoStr) :
    relayLines u true ls = markFirst (emittedContents u ls) := by
  induction ls with
  | nil => rfl
  | cons l ls ih =>
    simp only [relayLines, processLine_char, emittedContents,
      List.filterMap_cons]
    cases hl : lineContent u l with
    | none => simpa [emittedContents] using ih
    | some c =>
      simpa [emittedContents, markFirst] using relayLines_false u ls

/-- `lineContent` keeps exactly the non-empty `firstChoiceContent`s. -/
theorem lineContent_char (u : GoStr → Option OpenAIResponse) (l : GoStr) :
    lineContent u l =
      match firstChoiceContent u l with
      | none => none
      | some c => if c = [] then none else some c := by
  unfold lineContent firstChoiceContent
  by_cases h1 : trimSpace l = [] ∨ trimSpace l = sentinelLine
  · simp [h1]
  · simp only [if_neg h1]
    cases hu : u (goTrimLeading (trimSpace l) dataTag) with
    | none => simp
    | some r =>
      cases hc : r.choices with
      | nil => simp [hc]
      | cons ch rest => simp [hc]

theorem join_emittedContents (u : GoStr → Option OpenAIResponse)
    (ls : List GoStr) :
    (emittedContents u ls).flatten = (upstreamContents u ls).flatten := by
  induction ls with
  | nil => rfl
  | cons l ls ih =>
    simp only [emittedContents, upstreamContents, List.filterMap_cons] at *
    rw [lineContent_char]
    cases hf : firstChoiceContent u l with
    | none => simpa using ih
    | some c =>
      by_cases hc : c = []
      · simp [hc, ih]
      · simp [hc, ih]

/-- The read loop stops at the first read error: events after it are never
read, and the spawned texts are exactly those of the error-free reads before
it. -/
theorem wsLoop_stops_at_fail (pre post : List ReadResult)
    (hpre : ∀ e ∈ pre, e ≠ ReadResult.fail) :
    wsLoop (pre ++ ReadResult.fail :: post) = pre.filterMap okText := by
  induction pre with
  | nil => rfl
  | cons e pre ih =>
    have he := hpre e (by simp)
    cases e with
    | fail => exact absurd rfl he
    | ok m =>
      simp only [List.cons_append, wsLoop, List.filterMap_cons, okText]
      exact congrArg (List.cons m.text) (ih (fun x hx => hpre x (by simp [hx])))

/-- C1: concatenating all fragments one relay task emits, with the `AI: `
marker removed from the first one, equals the concatenation, in upstream
order, of the `delta.content` values of the first choice of every
well-formed upstream line; fragments are emitted in the order the lines are
parsed. -/
theorem relay_concat_roundtrip (u : GoStr → Option OpenAIResponse)
    (ls : List GoStr) :
    (stripAIHead (relayLines u true ls)).flatten =
      (upstreamContents u ls).flatten := by
  rw [relayLines_true, ← join_emittedContents]
  cases h : emittedContents u ls with
  | nil => rfl
  | cons c cs => simp [markFirst, stripAIHead, removeAIMark_app]

/-- C2: the first fragment a relay task emits is the first non-empty
content prefixed with the `AI: ` marker, and every subsequent fragment is
the corresponding non-empty content verbatim, with no marker added — for
line sequences yielding zero, one, or many fragments. -/
theorem relay_first_fragment_marked (u : GoStr → Option OpenAIResponse)
    (ls : List GoStr) :
    relayLines u true ls = markFirst (emittedContents u ls) :=
  relayLines_true u ls

/-- C3: a relay task issues exactly one outbound request — a POST to the
fixed completion URL with `Content-Type: application/json` and
`Authorization: Bearer` of the API key — whose payload carries the fixed
model identifier, `stream` set to `true`, and a single message of role
`user` whose content is the inbound text. -/
theorem stream_single_request (u : GoStr → Option OpenAIResponse)
    (text apiKey : GoStr) (upstream : UpstreamOutcome) :
    (streamResponse u text apiKey upstream).requests
        = [buildHTTPRequest text apiKey]
    ∧ (buildHTTPRequest text apiKey).method = gs "POST"
    ∧ (buildHTTPRequest text apiKey).url = openAIURL
    ∧ (buildHTTPRequest text apiKey).headers
        = [(gs "Content-Type", gs "application/json"),
           (gs "Authorization", gs "Bearer " ++ apiKey)]
    ∧ (buildHTTPRequest text apiKey).payload.model = gs "gpt-4o-mini"
    ∧ (buildHTTPRequest text apiKey).payload.messages
        = [{ role := gs "user", content := text }]
    ∧ (buildHTTPRequest text apiKey).payload.stream = true := by
  refine ⟨?_, rfl, rfl, rfl, rfl, rfl, rfl⟩
  cases upstream <;> rfl

/-- C4 counterexample: the sentinel line does not terminate the relay task —
on a body whose first line is `data: [DONE]` and whose second line carries
content `Hi`, the task still emits a frame from the line after the
sentinel, so the claim that no further lines are processed and no further
frames are emitted after the sentinel is false. -/
theorem sentinel_not_terminal_cex :
    relayLines unmarshalDemo true [sentinelLine, dataTag ++ chunkHi]
        = [gs "AI: Hi"]
    ∧ relayLines unmarshalDemo true [sentinelLine, dataTag ++ chunkHi]
        ≠ [] := by
  exact ⟨by decide, by decide⟩

/-- C4 (amended): a relay task terminates exactly when the response body is
exhausted or a read error occurs on it; a line that trims to the sentinel
`data: [DONE]` is skipped like an empty line — it produces no frame, leaves
the first-token flag unchanged, and the task continues processing the
subsequent lines. -/
theorem sentinel_line_skipped (u : GoStr → Option OpenAIResponse) (b : Bool)
    (l : GoStr) (ls : List GoStr) (h : trimSpace l = sentinelLine) :
    relayLines u b (l :: ls) = relayLines u b ls := by
  have hp : processLine u b l = (none, b) := by
    unfold processLine
    rw [if_pos (Or.inr h)]
  simp [relayLines, hp]

/-- Witness for C4 (amended) at a concrete sentinel line with surrounding
whitespace, followed by a content-bearing line. -/
theorem sentinel_line_skipped_wit :
    relayLines unmarshalDemo true [gs " data: [DONE]\n", dataTag ++ chunkHi]
      = relayLines unmarshalDemo true [dataTag ++ chunkHi] :=
  sentinel_line_skipped unmarshalDemo true (gs " data: [DONE]\n")
    [dataTag ++ chunkHi] (by decide)

/-- C5: a line that is empty after trimming, equal to the sentinel, or whose
remainder after stripping the `data: ` tag fails to unmarshal, produces no
outbound frame, leaves the first-token flag unchanged, and the task
continues processing the subsequent lines unchanged. -/
theorem skipped_line_no_frame (u : GoStr → Option OpenAIResponse) (b : Bool)
    (l : GoStr) (ls : List GoStr)
    (h : trimSpace l = [] ∨ trimSpace l = sentinelLine ∨
         u (goTrimLeading (trimSpace l) dataTag) = none) :
    relayLines u b (l :: ls) = relayLines u b ls := by
  have hp : processLine u b l = (none, b) := by
    unfold processLine
    rcases h with h | h | h
    · rw [if_pos (Or.inl h)]
    · rw [if_pos (Or.inr h)]
    · by_cases h1 : trimSpace l = [] ∨ trimSpace l = sentinelLine
      · rw [if_pos h1]
      · rw [if_neg h1, h]
  simp [relayLines, hp]

/-- Witness for C5 at a concrete line that is not valid JSON after tag
stripping, followed by a content-bearing line. -/
theorem skipped_line_no_frame_wit :
    relayLines unmarshalDemo true [gs "data: notjson", dataTag ++ chunkHi]
      = relayLines unmarshalDemo true [dataTag ++ chunkHi] :=
  skipped_line_no_frame unmarshalDemo true (gs "data: notjson")
    [dataTag ++ chunkHi] (Or.inr (Or.inr (by decide)))

/-- C6: when the outbound request fails to establish, the relay task logs
the failure and ends with zero frames emitted — no error frame reaches the
client — and the accept loop, which never consults relay outcomes, keeps
reading further messages from the connection. -/
theorem conn_failure_silent (u : GoStr → Option OpenAIResponse)
    (text apiKey : GoStr) (m : WebSocketMessage) (es : List ReadResult) :
    (streamResponse u text apiKey UpstreamOutcome.connFailure).frames = []
    ∧ (streamResponse u text apiKey UpstreamOutcome.connFailure).logs
        = [connFailureLog]
    ∧ wsLoop (ReadResult.ok m :: es) = m.text :: wsLoop es :=
  ⟨rfl, rfl, rfl⟩

/-- C7: any read error on the accept loop — a client close and a frame that
fails to decode both surface as the same `ReadJSON` error — makes the loop
exit, never reading the later events, and leaves the connection removed
from the registry; the handler sends no frame to the client about it. -/
theorem read_error_unregisters (clients : ConnId → Bool) (c : ConnId)
    (pre post : List ReadResult)
    (hpre : ∀ e ∈ pre, e ≠ ReadResult.fail) :
    (handleWebSocket clients c (pre ++ ReadResult.fail :: post)).1
        = pre.filterMap okText
    ∧ (handleWebSocket clients c (pre ++ ReadResult.fail :: post)).2 c
        = false := by
  refine ⟨wsLoop_stops_at_fail pre post hpre, ?_⟩
  simp [handleWebSocket, unregisterConn]

/-- Witness for C7 at a concrete event sequence: one good read, then a read
error, then an event that is never read. -/
theorem read_error_unregisters_wit :
    (handleWebSocket (fun _ => true) 0
        ([ReadResult.ok ⟨gs "hello"⟩] ++ ReadResult.fail ::
          [ReadResult.ok ⟨gs "later"⟩])).1 = [gs "hello"]
    ∧ (handleWebSocket (fun _ => true) 0
        ([ReadResult.ok ⟨gs "hello"⟩] ++ ReadResult.fail ::
          [ReadResult.ok ⟨gs "later"⟩])).2 0 = false := by
  have h := read_error_unregisters (fun _ => true) 0
    [ReadResult.ok ⟨gs "hello"⟩] [ReadResult.ok ⟨gs "later"⟩] (by decide)
  exact ⟨h.1.trans (by decide), h.2⟩

/-- C8: with the API-key variable empty (absent), startup stops with the
diagnostic before any listener exists; with a key present it serves, on
port `8080` when the port variable is unset and on the configured port
otherwise. -/
theorem startup_requires_key (key port : GoStr) :
    mainStartup [] port = StartupResult.exitBeforeServing missingKeyDiagnostic
    ∧ (key ≠ [] → mainStartup key [] = StartupResult.serve (gs "8080"))
    ∧ (key ≠ [] → port ≠ [] →
        mainStartup key port = StartupResult.serve port) := by
  refine ⟨rfl, fun hk => ?_, fun hk hp => ?_⟩
  · simp [mainStartup, hk]
  · simp [mainStartup, hk, hp]

/-- Witness for C8 at a concrete key and port. -/
theorem startup_requires_key_wit :
    mainStartup (gs "k") (gs "9090") = StartupResult.serve (gs "9090")
    ∧ mainStartup (gs "k") [] = StartupResult.serve (gs "8080") :=
  ⟨(startup_requires_key (gs "k") (gs "9090")).2.2 (by decide) (by decide),
   (startup_requires_key (gs "k") []).2.1 (by decide)⟩

/-- C9: the outcome of each `WriteJSON` call is discarded, so the sequence
of attempted frames — including which fragment carries the `AI: ` marker
and how many fragments follow — is the same whatever writes fail: the task
continues past a failed write and the first-token flag has already flipped
at the first attempted write. -/
theorem write_outcome_ignored (u : GoStr → Option OpenAIResponse)
    (w : Nat → Bool) (b : Bool) (k : Nat) (ls : List GoStr) :
    (relayWrites u w b k ls).map Prod.fst = relayLines u b ls := by
  induction ls generalizing b k with
  | nil => rfl
  | cons l ls ih =>
    simp only [relayWrites, relayLines]
    cases hp : processLine u b l with
    | mk f b2 =>
      cases f with
      | none => exact ih b2 k
      | some frag => simp only [List.map_cons]; rw [ih]

/-- C10: a line that does not start with the `data: ` tag is not skipped —
tag stripping is a no-op on it and the whole trimmed line goes to the
unmarshaller — and on a bare JSON line of the expected shape with non-empty
content the relay task does emit an outbound frame. -/
theorem bare_line_emits :
    (∀ l : GoStr, dataTag.isPrefixOf l = false → goTrimLeading l dataTag = l)
    ∧ relayLines unmarshalDemo true [chunkHi] = [gs "AI: Hi"] := by
  refine ⟨fun l h => ?_, by decide⟩
  simp [goTrimLeading, h]

/-- Witness for C10: tag stripping leaves a concrete bare JSON line
unchanged. -/
theorem bare_line_emits_wit : goTrimLeading chunkHi dataTag = chunkHi :=
  bare_line_emits.1 chunkHi (by decide)

end LlmChat
